import Mathlib

/-!
Shallow embedding of the hierarchical finite state machine engine of
`airena/extern/hfsm.py` (classes `BaseState`, `Transition`, `Structure`,
`SympleHFSM`).

Conventions of the embedding:

* State identifiers, event identifiers and action/guard handles are
  embedded as natural numbers.  Python truthiness of an integer
  identifier `x` is `x ≠ 0` (`if parent:`, `if self.root:`, `if name:` in
  the source test truthiness, not `is not None`).
* `BaseState` objects live in an arena (`List Node`, index = allocation
  order); `parent`, `children` and `initial` hold arena indices,
  mirroring Python object references, so object identity is index
  equality.  `Structure.states` is the id-to-object dictionary as an
  association list in insertion order.
* The per-node `optimized` defaultdict is kept as `Structure.tables`,
  an association list keyed by arena index; a missing key yields the
  defaultdict default `(None, [], None)`, exactly as in Python.
* Raised exceptions are explicit error values returned next to the
  (possibly partially mutated) data, because a Python `raise` leaves all
  mutations done so far in place.
* Every loop of the source carries a fuel argument; a result of `none`
  marks a run that the Python code does not complete normally (an
  infinite loop, or an unmodelled crash such as an `AttributeError` /
  `KeyError` raised from inside an algorithm loop).  A fuel of
  `arena.length + 1` is enough for every terminating traversal, since a
  terminating Python loop never revisits a node.
* The caller-supplied actions object is opaque: invoking a methodcaller
  appends its handle to a trace.  A `Behav` valuation says what each
  guard returns and which guard/action invocations raise.
-/

namespace Hfsm

/-- Transition record (`Transition.__init__`): target state identifier
(`none` encodes Python `None`, an internal transition), optional
transition action handle, optional guard handle. -/
structure Trans where
  target : Option Nat
  action : Option Nat
  guard : Option Nat
deriving DecidableEq

/-- One `BaseState` node.  `name` is `none` when the Python constructor
kept its `str(id(self))` fallback, which happens exactly when a falsy
identifier (such as the integer 0) was supplied as the name. -/
structure Node where
  name : Option Nat
  parent : Option Nat
  children : List Nat
  initial : Option Nat
  entry : Option Nat
  exit : Option Nat
  events : List (Nat × Trans)
deriving DecidableEq

/-- Entry of a per-leaf optimized dispatch table: guard handle, ordered
methodcaller list, target node (arena index; the defaultdict default is
`⟨none, [], none⟩`). -/
structure OptTriple where
  guard : Option Nat
  calls : List Nat
  target : Option Nat
deriving DecidableEq

/-- The shared state machine structure (`Structure.__init__`). -/
structure Structure where
  arena : List Node
  states : List (Nat × Nat)
  root : Option Nat
  isOptimized : Bool
  tables : List (Nat × List (Nat × OptTriple))
deriving DecidableEq

/-- A fresh `Structure()`. -/
def emptyStructure : Structure := ⟨[], [], none, false, []⟩

/-- Dictionary lookup on an association list (all dictionaries of the
source have unique keys, so first match is the Python semantics). -/
def lookupA {α : Type} : List (Nat × α) → Nat → Option α
  | [], _ => none
  | (k, v) :: t, q => if k = q then some v else lookupA t q

/-- Python `in` test on a dictionary. -/
def hasKey {α : Type} (l : List (Nat × α)) (k : Nat) : Bool :=
  (lookupA l k).isSome

/-- Dereference an arena index (a Python object reference). -/
def getNodeA : List Node → Nat → Option Node
  | [], _ => none
  | n :: _, 0 => some n
  | _ :: t, i + 1 => getNodeA t i

/-- Replace the node at an arena index (mutation of a Python object). -/
def setNodeA : List Node → Nat → Node → List Node
  | [], _, _ => []
  | _ :: t, 0, x => x :: t
  | n :: t, i + 1, x => n :: setNodeA t i x

/-- Truthiness of an optional integer identifier. -/
def truthyId : Option Nat → Bool
  | none => false
  | some n => n ≠ 0

/-- Errors raised by the structure building code. -/
inductive BuildError
  | parentUnknown
  | parentAlreadySet
  | initialAlreadySet
  | rootAlreadyDefined
  | duplicateStateId
  | stateUnknown
  | eventAlreadyDefined
deriving DecidableEq

/-- `BaseState(name=state_identifier)` as constructed inside
`Structure.add_state`: fresh node, `name` kept only if truthy. -/
def mkNode (sid : Nat) (entry exitA : Option Nat) : Node :=
  { name := if sid = 0 then none else some sid
  , parent := none
  , children := []
  , initial := none
  , entry := entry
  , exit := exitA
  , events := [] }

/-- Final duplicate-identifier check and insertion of `add_state` (the
check runs after the parent/root mutations, exactly as in the source). -/
def finishAdd (s : Structure) (sid ci : Nat) : Structure × Option BuildError :=
  if hasKey s.states sid then (s, some .duplicateStateId)
  else ({ s with states := s.states ++ [(sid, ci)] }, none)

/-- The `parent` branch of `add_state`: `self.states[parent].add(internal_state, initial)`
(`BaseState.add`) followed by the duplicate check.  The new node was
already appended to the arena by the caller at index `ci`. -/
def attachChild (s : Structure) (sid pi ci : Nat) (initial : Bool) :
    Structure × Option BuildError :=
  match getNodeA s.arena pi with
  | none => (s, some .parentUnknown)
  | some pn =>
    match getNodeA s.arena ci with
    | none => (s, some .parentUnknown)
    | some cn =>
      if cn.parent.isSome then (s, some .parentAlreadySet)
      else if initial ∧ pn.initial.isSome then (s, some .initialAlreadySet)
      else
        let pn' : Node :=
          { pn with initial := if initial then some ci else pn.initial
                  , children := pn.children ++ [ci] }
        let cn' : Node := { cn with parent := some pi }
        finishAdd { s with arena := setNodeA (setNodeA s.arena pi pn') ci cn' } sid ci

/-- The root branch of `add_state` (falsy `parent`): second-root check by
truthiness of `self.root`, then root assignment, then duplicate check. -/
def rootBranch (s : Structure) (sid ci : Nat) : Structure × Option BuildError :=
  if truthyId s.root then (s, some .rootAlreadyDefined)
  else finishAdd { s with root := some sid } sid ci

/-- `Structure.add_state(state_identifier, parent, initial, entry_action,
exit_action)`.  The returned structure carries all mutations done before
a raise, because Python exceptions do not roll anything back. -/
def add_state (s : Structure) (sid : Nat) (parent : Option Nat)
    (initial : Bool) (entry exitA : Option Nat) : Structure × Option BuildError :=
  match parent with
  | some p =>
    if p ≠ 0 then
      match lookupA s.states p with
      | none => (s, some .parentUnknown)
      | some pi =>
        let ci := s.arena.length
        attachChild { s with arena := s.arena ++ [mkNode sid entry exitA] } sid pi ci initial
    else
      let ci := s.arena.length
      rootBranch { s with arena := s.arena ++ [mkNode sid entry exitA] } sid ci
  | none =>
    let ci := s.arena.length
    rootBranch { s with arena := s.arena ++ [mkNode sid entry exitA] } sid ci

/-- `Structure.add_trans(state, event, target, action, guard)`. -/
def add_trans (s : Structure) (stateId ev : Nat) (target : Option Nat)
    (action guard : Option Nat) : Structure × Option BuildError :=
  if ¬ hasKey s.states stateId then (s, some .stateUnknown)
  else if (match target with
           | some t => ! hasKey s.states t
           | none => false) then (s, some .stateUnknown)
  else
    match lookupA s.states stateId with
    | none => (s, some .stateUnknown)
    | some i =>
      match getNodeA s.arena i with
      | none => (s, some .stateUnknown)
      | some n =>
        if hasKey n.events ev then (s, some .eventAlreadyDefined)
        else
          let n' := { n with events := n.events ++ [(ev, ⟨target, action, guard⟩)] }
          ({ s with arena := setNodeA s.arena i n' }, none)

/-! ## The resolution algorithm `Structure._get_methodcallers` -/

/-- Phase 1 of `_get_methodcallers`: walk up from the current node
collecting the walked-over nodes until some node defines the event
(`while transition is None: ...`).  Returns the handler with its
transition (or `none` when the event is unhandled up to the root) and
the list `nodes` of walked-over nodes. -/
def walkUpF (arena : List Node) (ev : Nat) :
    Nat → Nat → List Nat → Option (Option (Nat × Trans) × List Nat)
  | 0, _, _ => none
  | f + 1, i, acc =>
    match getNodeA arena i with
    | none => none
    | some n =>
      match lookupA n.events ev with
      | some t => some (some (i, t), acc)
      | none =>
        match n.parent with
        | some p => walkUpF arena ev f p (acc ++ [i])
        | none => some (none, acc ++ [i])

/-- Exit-action handles of the walked-over nodes, in walk order
(`for node in nodes: if node.exit: methodcalls.append(node.exit)`). -/
def exitsOf (arena : List Node) : List Nat → List Nat
  | [] => []
  | i :: t =>
    (match getNodeA arena i with
     | some n => n.exit.toList
     | none => []) ++ exitsOf arena t

/-- `BaseState.is_child(parent_state)`: walk the parent chain of node `i`
and test each ancestor for identity with `anc`.  `anc` may be `none`
(Python passes `None` once the walk in the caller ran past the root), in
which case the result is `false` after climbing the whole chain. -/
def isChildF (arena : List Node) : Nat → Nat → Option Nat → Option Bool
  | 0, _, _ => none
  | f + 1, i, anc =>
    match getNodeA arena i with
    | none => none
    | some n =>
      match n.parent with
      | none => some false
      | some p => if some p = anc then some true else isChildF arena f p anc

/-- The common-ancestor search loop of `_get_methodcallers`
(`while not target_node.is_child(source_node): ...`): climb from the
handler, appending each left node's exit action, until the target is a
descendant of the source (or the source reaches the target itself).
Returns the final source and the collected exits.  `none` covers the
diverging runs and the `AttributeError` the source raises when the walk
runs past the root. -/
def lcaLoopF (arena : List Node) (tgt F : Nat) :
    Nat → Option Nat → List Nat → Option (Option Nat × List Nat)
  | 0, _, _ => none
  | f + 1, src, acc =>
    match isChildF arena F tgt src with
    | none => none
    | some true => some (src, acc)
    | some false =>
      if src = some tgt then some (src, acc)
      else
        match src with
        | none => none
        | some si =>
          match getNodeA arena si with
          | none => none
          | some n => lcaLoopF arena tgt F f n.parent (acc ++ n.exit.toList)

/-- One step of the descend loop: find the first child of the source that
is the target or an ancestor of the target.  `some none` means no child
matched (the Python `while` then spins forever). -/
def findChildStep (arena : List Node) (F tgt : Nat) :
    List Nat → Option (Option (Nat × Bool))
  | [] => some none
  | c :: cs =>
    if c = tgt then some (some (c, true))
    else
      match isChildF arena F tgt (some c) with
      | none => none
      | some true => some (some (c, false))
      | some false => findChildStep arena F tgt cs

/-- The descend loop of `_get_methodcallers`
(`while source_node != target_node: for child in source_node.children: ...`):
walk down from the common ancestor towards the target, appending entry
actions of the entered children. -/
def descendF (arena : List Node) (F tgt : Nat) :
    Nat → Option Nat → List Nat → Option (List Nat)
  | 0, _, _ => none
  | f + 1, src, acc =>
    match src with
    | none => none
    | some si =>
      if si = tgt then some acc
      else
        match getNodeA arena si with
        | none => none
        | some n =>
          match findChildStep arena F tgt n.children with
          | none => none
          | some none => none
          | some (some (c, isTgt)) =>
            if isTgt then
              match getNodeA arena tgt with
              | none => none
              | some tn => descendF arena F tgt f (some tgt) (acc ++ tn.entry.toList)
            else
              match getNodeA arena c with
              | none => none
              | some cn => descendF arena F tgt f (some c) (acc ++ cn.entry.toList)

/-- The initial-descent tail of `_get_methodcallers`
(`if target_node.initial: ...`): follow `initial` links from the target,
appending the entry action of every descended node, and return the
collected entries together with the final node. -/
def initialDescentF (arena : List Node) : Nat → Nat → Option (List Nat × Nat)
  | 0, _ => none
  | f + 1, t =>
    match getNodeA arena t with
    | none => none
    | some n =>
      match n.initial with
      | none => some ([], t)
      | some c =>
        match getNodeA arena c with
        | none => none
        | some cn =>
          match initialDescentF arena f c with
          | none => none
          | some (es, fin) => some (cn.entry.toList ++ es, fin)

/-- `Structure._get_methodcallers(state_machine, event, current_state)`:
returns the guard, the ordered methodcaller list and the resulting node
(arena index).  `none` marks runs the Python function does not complete
normally (divergence, or a crash from a dangling target identifier). -/
def gmcF (arena : List Node) (states : List (Nat × Nat)) (F ev cur : Nat) :
    Option (Option Nat × List Nat × Nat) :=
  match walkUpF arena ev F cur [] with
  | none => none
  | some (none, _) => some (none, [], cur)
  | some (some (h, t), nodes) =>
    let exits := exitsOf arena nodes
    match t.target with
    | none =>
      match initialDescentF arena F h with
      | none => none
      | some (es, fin) => some (t.guard, exits ++ t.action.toList ++ es, fin)
    | some tid =>
      match lookupA states tid with
      | none => none
      | some ti =>
        let step : Option (Option Nat × List Nat) :=
          if h = ti then
            match getNodeA arena h with
            | none => none
            | some hn => some (hn.parent, hn.exit.toList)
          else lcaLoopF arena ti F F (some h) []
        match step with
        | none => none
        | some (src1, lcaExits) =>
          match descendF arena F ti F src1 [] with
          | none => none
          | some dEntries =>
            match initialDescentF arena F ti with
            | none => none
            | some (es, fin) =>
              some (t.guard, exits ++ lcaExits ++ t.action.toList ++ dEntries ++ es, fin)

/-! ## `Structure.do_optimize` -/

/-- All event identifiers defined anywhere in the structure, collected by
iterating over `self.states.values()` (the Python code builds a set; the
association-list tables below only ever use key lookup, so the iteration
order and duplicate keys are unobservable). -/
def allEvents (s : Structure) : List Nat :=
  s.states.foldr
    (fun p acc =>
      (match getNodeA s.arena p.2 with
       | some n => n.events.map Prod.fst
       | none => []) ++ acc) []

/-- Arena indices of the leaf states
(`[x for x in self.states.values() if not x.children]`). -/
def leafIndices (s : Structure) : List Nat :=
  s.states.filterMap fun p =>
    match getNodeA s.arena p.2 with
    | some n => if n.children = [] then some p.2 else none
    | none => none

/-- The optimized table of one leaf: one `_get_methodcallers` run per
known event.  `none` when some run does not terminate. -/
def mkLeafTable (arena : List Node) (states : List (Nat × Nat)) (F : Nat) :
    List Nat → Nat → Option (List (Nat × OptTriple))
  | [], _ => some []
  | e :: es, li =>
    match gmcF arena states F e li with
    | none => none
    | some tr =>
      match mkLeafTable arena states F es li with
      | none => none
      | some tbl => some ((e, ⟨tr.1, tr.2.1, some tr.2.2⟩) :: tbl)

/-- Tables for all leaves. -/
def buildTables (arena : List Node) (states : List (Nat × Nat)) (F : Nat)
    (evs : List Nat) : List Nat → Option (List (Nat × List (Nat × OptTriple)))
  | [] => some []
  | li :: ls =>
    match mkLeafTable arena states F evs li with
    | none => none
    | some tbl =>
      match buildTables arena states F evs ls with
      | none => none
      | some tbls => some ((li, tbl) :: tbls)

/-- `Structure.do_optimize()`: precompute the resolution of every known
event from every leaf and set the `is_optimized` flag.  It only rewrites
the cached tables; the states, the hierarchy and the transitions are
untouched. -/
def doOptimize (F : Nat) (s : Structure) : Option Structure :=
  match buildTables s.arena s.states F (allEvents s) (leafIndices s) with
  | none => none
  | some tbls => some { s with tables := tbls, isOptimized := true }

/-- Table lookup performed by `_handle_event_optimized`
(`self._current_state.optimized[event]`): a missing node or event key
yields the defaultdict default `(None, [], None)`. -/
def lookupTables (tbls : List (Nat × List (Nat × OptTriple))) (i ev : Nat) : OptTriple :=
  match lookupA tbls i with
  | none => ⟨none, [], none⟩
  | some tbl =>
    match lookupA tbl ev with
    | none => ⟨none, [], none⟩
    | some tr => tr

/-! ## `BaseState.check_consistency` -/

/-- The child loop of `check_consistency`: for every child, in order,
first the parent back-reference test (`child.parent != self` raises
`WrongParentError`), then the recursive check.  `some false` stands for a
raised consistency exception. -/
def checkList (chk : Nat → Option Bool) (arena : List Node) (pi : Nat) :
    List Nat → Option Bool
  | [] => some true
  | c :: cs =>
    match getNodeA arena c with
    | none => none
    | some cn =>
      if cn.parent = some pi then
        match chk c with
        | some true => checkList chk arena pi cs
        | r => r
      else some false

/-- `BaseState.check_consistency()` from the node at arena index `i`
(`some false` = one of the two consistency exceptions raised). -/
def checkConsistencyF (arena : List Node) : Nat → Nat → Option Bool
  | 0, _ => none
  | f + 1, i =>
    match getNodeA arena i with
    | none => none
    | some n =>
      if n.initial = none ∧ n.children ≠ [] then some false
      else checkList (checkConsistencyF arena f) arena i n.children

/-! ## The machine `SympleHFSM` -/

/-- The function pointer `self.handle_event` of `SympleHFSM`: the
not-initialized stub, `_handle_event_normal`, or
`_handle_event_optimized`. -/
inductive Mode
  | notInitialized
  | normal
  | optimized
deriving DecidableEq

/-- One machine instance: shared structure, current state
(`_current_state`, an object reference = arena index), the reentrancy
flag `_currently_handling_event`, and the installed dispatch method. -/
structure Machine where
  s : Structure
  current : Option Nat
  handling : Bool
  mode : Mode
deriving DecidableEq

/-- `SympleHFSM(structure, actions)`: fresh machine. -/
def mkMachine (s : Structure) : Machine := ⟨s, none, false, .notInitialized⟩

/-- Behaviour of the opaque actions object: what each guard handle
returns, and which guard/action invocations raise an exception. -/
structure Behav where
  gRet : Nat → Bool
  gThrows : Nat → Bool
  aThrows : Nat → Bool

/-- A benign actions object: every guard returns `True`, nothing
raises. -/
def calmBehav : Behav := ⟨fun _ => true, fun _ => false, fun _ => false⟩

/-- Errors raised by the machine operations.  `pyCrash` stands for an
incidental `KeyError`/`AttributeError` escaping the method. -/
inductive RunError
  | notInitialized
  | alreadyInitialized
  | inconsistent
  | reentrant
  | raised
  | stateUnknown
  | pyCrash
deriving DecidableEq

/-- Run a list of methodcallers on the actions object: the trace of
invoked handles, and whether the run was cut short by a raise (the
raising call is still in the trace, it was invoked). -/
def runCalls (b : Behav) : List Nat → List Nat × Bool
  | [] => ([], false)
  | c :: cs =>
    if b.aThrows c then ([c], true)
    else
      let r := runCalls b cs
      (c :: r.1, r.2)

/-- Result of a dispatch: machine afterwards, trace of methodcaller
invocations on the actions object, error raised if any. -/
abbrev DispatchRes := Machine × List Nat × Option RunError

/-- `SympleHFSM.set_state(state_identifier)`: the unknown-state test runs
before the reentrancy test, and the assignment bypasses all actions. -/
def setStateF (m : Machine) (sid : Nat) : Machine × Option RunError :=
  if ¬ hasKey m.s.states sid then (m, some .stateUnknown)
  else if m.handling then (m, some .reentrant)
  else
    match lookupA m.s.states sid with
    | none => (m, some .stateUnknown)
    | some j => ({ m with current := some j }, none)

/-- The entry descent of `SympleHFSM.init`: from the root, invoke each
node's entry action and follow the `initial` link.  Returns the entry
trace and the final node, or `(trace, none)` when an entry action raised
(`_current_state` is then never assigned). -/
def descendInitF (b : Behav) (arena : List Node) : Nat → Nat → Option (List Nat × Option Nat)
  | 0, _ => none
  | f + 1, i =>
    match getNodeA arena i with
    | none => none
    | some n =>
      match n.entry with
      | some a =>
        if b.aThrows a then some ([a], none)
        else
          match n.initial with
          | none => some ([a], some i)
          | some c =>
            match descendInitF b arena f c with
            | none => none
            | some r => some (a :: r.1, r.2)
      | none =>
        match n.initial with
        | none => some ([], some i)
        | some c => descendInitF b arena f c

/-- The body of `SympleHFSM.init` after the double-init test: root
lookup, consistency check, entry descent, then installation of the
dispatch method chosen from `use_optimization` and
`structure.is_optimized`. -/
def initCoreF (b : Behav) (F : Nat) (m : Machine) (useOpt : Bool) :
    Option (Machine × List Nat × Option RunError) :=
  match m.s.root with
  | none => some (m, [], some .pyCrash)
  | some rid =>
    match lookupA m.s.states rid with
    | none => some (m, [], some .pyCrash)
    | some ri =>
      match checkConsistencyF m.s.arena F ri with
      | none => none
      | some false => some (m, [], some .inconsistent)
      | some true =>
        match descendInitF b m.s.arena F ri with
        | none => none
        | some (tr, none) => some (m, tr, some .raised)
        | some (tr, some fin) =>
          some ({ m with current := some fin
                       , mode := if useOpt && m.s.isOptimized then .optimized else .normal },
                tr, none)

/-- `SympleHFSM.init(use_optimization)`: raises `InitAlreadyCalledError`
exactly when a dispatch method is installed, then runs the init body. -/
def initF (b : Behav) (F : Nat) (m : Machine) (useOpt : Bool) :
    Option (Machine × List Nat × Option RunError) :=
  if m.mode ≠ .notInitialized then some (m, [], some .alreadyInitialized)
  else initCoreF b F m useOpt

/-- The exit walk of `SympleHFSM.exit`: invoke exit actions up the parent
chain.  Second component is `true` when an exit action raised. -/
def exitWalkF (b : Behav) (arena : List Node) : Nat → Option Nat → Option (List Nat × Bool)
  | 0, _ => none
  | _ + 1, none => some ([], false)
  | f + 1, some i =>
    match getNodeA arena i with
    | none => none
    | some n =>
      match n.exit with
      | some a =>
        if b.aThrows a then some ([a], true)
        else
          match exitWalkF b arena f n.parent with
          | none => none
          | some r => some (a :: r.1, r.2)
      | none => exitWalkF b arena f n.parent

/-- `SympleHFSM.exit()`: the start node is recovered by looking the
`current_state` property (the current node's `name`) up in the states
dictionary — a `KeyError` if the name is the `str(id(self))` fallback of
a falsy identifier; a falsy name skips the walk.  On success the current
state is cleared and the not-initialized stub is reinstalled. -/
def exitF (b : Behav) (F : Nat) (m : Machine) :
    Option (Machine × List Nat × Option RunError) :=
  let start : Option (Option Nat) :=
    match m.current with
    | none => some none
    | some i =>
      match getNodeA m.s.arena i with
      | none => none
      | some n =>
        match n.name with
        | none => none
        | some nm =>
          if nm = 0 then some none
          else
            match lookupA m.s.states nm with
            | none => none
            | some j => some (some j)
  match start with
  | none => some (m, [], some .pyCrash)
  | some st =>
    match exitWalkF b m.s.arena F st with
    | none => none
    | some (tr, true) => some (m, tr, some .raised)
    | some (tr, false) =>
      some ({ m with current := none, mode := .notInitialized }, tr, none)

/-- `SympleHFSM._handle_event_normal(event)`: reentrancy test, resolution
through `_get_methodcallers`, guard evaluation (`is False` — the guard is
boolean-valued here), methodcaller invocations, then the unconditional
assignment of the new current state. -/
def handleEventNormalF (b : Behav) (F : Nat) (m : Machine) (ev : Nat) :
    Option DispatchRes :=
  if m.handling then some (m, [], some .reentrant)
  else
    match m.current with
    | none => some ({ m with handling := true }, [], some .pyCrash)
    | some cur =>
      match gmcF m.s.arena m.s.states F ev cur with
      | none => none
      | some (g, calls, tgt) =>
        let m1 : Machine := { m with handling := true }
        let proceed : DispatchRes :=
          let r := runCalls b calls
          if r.2 then (m1, r.1, some .raised)
          else ({ m with current := some tgt, handling := false }, r.1, none)
        match g with
        | some gid =>
          if b.gThrows gid then some (m1, [], some .raised)
          else if b.gRet gid = false then some ({ m1 with handling := false }, [], none)
          else some proceed
        | none => some proceed

/-- `SympleHFSM._handle_event_optimized(event)`: the same dispatch driven
by the cached table; the state assignment is guarded by the truthiness of
the cached target. -/
def handleEventOptimizedF (b : Behav) (m : Machine) (ev : Nat) : DispatchRes :=
  if m.handling then (m, [], some .reentrant)
  else
    match m.current with
    | none => ({ m with handling := true }, [], some .pyCrash)
    | some cur =>
      let tr := lookupTables m.s.tables cur ev
      let m1 : Machine := { m with handling := true }
      let proceed : DispatchRes :=
        let r := runCalls b tr.calls
        if r.2 then (m1, r.1, some .raised)
        else
          let m2 : Machine :=
            match tr.target with
            | some t => { m with current := some t }
            | none => m
          ({ m2 with handling := false }, r.1, none)
      match tr.guard with
      | some gid =>
        if b.gThrows gid then (m1, [], some .raised)
        else if b.gRet gid = false then ({ m1 with handling := false }, [], none)
        else proceed
      | none => proceed

/-- `self.handle_event(event)` through the installed function pointer. -/
def handleEventF (b : Behav) (F : Nat) (m : Machine) (ev : Nat) : Option DispatchRes :=
  match m.mode with
  | .notInitialized => some (m, [], some .notInitialized)
  | .normal => handleEventNormalF b F m ev
  | .optimized => some (handleEventOptimizedF b m ev)

/-- Fuel sufficient for every terminating loop of the source on this
structure (a terminating Python loop never revisits a node). -/
def fuelOf (s : Structure) : Nat := s.arena.length + 1

/-! ## Specification helpers (paths and well-formedness observations) -/

/-- The node path followed by the init descent: from node `i` along
`initial` links down to the first node with no initial child, returned
together with that final node. -/
def descPathF (arena : List Node) : Nat → Nat → Option (List Nat × Nat)
  | 0, _ => none
  | f + 1, i =>
    match getNodeA arena i with
    | none => none
    | some n =>
      match n.initial with
      | none => some ([i], i)
      | some c =>
        match descPathF arena f c with
        | none => none
        | some (p, t) => some (i :: p, t)

/-- Entry-action handles along a node path, in path order. -/
def entriesOfPath (arena : List Node) : List Nat → List Nat
  | [] => []
  | i :: t =>
    (match getNodeA arena i with
     | some n => n.entry.toList
     | none => []) ++ entriesOfPath arena t

/-- Structural invariant guaranteed by the build API: a designated
initial child is one of the children (`BaseState.add` sets both
together). -/
def wfInitial (arena : List Node) : Bool :=
  arena.all fun n =>
    match n.initial with
    | some c => n.children.contains c
    | none => true

/-- Whether any arena node defines the event.  On structures built
through `add_state`/`add_trans` every node holding a transition is
listed in `states`, so this coincides with membership in `allEvents`. -/
def evDefinedInArena (arena : List Node) (ev : Nat) : Bool :=
  arena.any fun n => (lookupA n.events ev).isSome

/-! ## Concrete structures used as test inputs -/

/-- The traffic-light structure of the spec scenario: root `1` with
children Red `2` (initial, entry 20), Green `3` (entry 30), Yellow `4`
(entry 40); event `5` cycles Red → Green → Yellow → Red; the Red → Green
transition carries action 61 and guard 71. -/
def tlight : Structure :=
  (add_trans (add_trans (add_trans
    (add_state (add_state (add_state (add_state emptyStructure
      1 none false none none).1
      2 (some 1) true (some 20) none).1
      3 (some 1) false (some 30) none).1
      4 (some 1) false (some 40) none).1
    2 5 (some 3) (some 61) (some 71)).1
    3 5 (some 4) none none).1
    4 5 (some 2) none none).1

/-- The traffic-light structure after `do_optimize()`. -/
def tlightO : Structure := (doOptimize (fuelOf tlight) tlight).getD emptyStructure

/-- A nested structure: root `1` (transition for event 9 with no target
and action 99), children A `2` (initial, entry 20, exit 21) and B `3`;
A has children A1 `4` (initial, entry 40, exit 41) and A2 `5`
(entry 50, exit 51).  Arena indices are 0, 1, 2, 3, 4 in that order. -/
def nestS : Structure :=
  (add_trans
    (add_state (add_state (add_state (add_state (add_state emptyStructure
      1 none false none none).1
      2 (some 1) true (some 20) (some 21)).1
      3 (some 1) false none none).1
      4 (some 2) true (some 40) (some 41)).1
      5 (some 2) false (some 50) (some 51)).1
    1 9 none (some 99) none).1

/-- A structure whose single (root) state has the falsy identifier 0. -/
def zeroS : Structure := (add_state emptyStructure 0 none false none none).1

/-- The machine `init()` produces on `zeroS`. -/
def zeroM : Machine := ⟨zeroS, some 0, false, .normal⟩

/-- A machine over the traffic light resting in Red, idle. -/
def tlM : Machine := ⟨tlight, some 1, false, .normal⟩

/-- The traffic-light machine as it looks while a dispatch is in
progress (the reentrancy flag is set during every action/guard
invocation of `handle_event`). -/
def tlBusyM : Machine := ⟨tlight, some 1, true, .normal⟩

/-- An actions object whose guards all return `False`. -/
def vetoBehav : Behav := ⟨fun _ => false, fun _ => false, fun _ => false⟩

/-- An actions object on which invoking handle 30 raises. -/
def throw30Behav : Behav := ⟨fun _ => true, fun _ => false, fun a => a == 30⟩

/-! ## Helper lemmas -/

theorem machine_eta_handling (m : Machine) (h : m.handling = false) :
    ({ m with handling := false } : Machine) = m := by
  cases m
  simp only at h
  simp [h]

theorem machine_eta_current (m : Machine) (t : Nat) (h1 : m.current = some t)
    (h2 : m.handling = false) :
    ({ m with current := some t, handling := false } : Machine) = m := by
  cases m
  simp only at h1 h2
  simp [h1, h2]

theorem getNodeA_lt : ∀ (l : List Node) (i : Nat) (n : Node),
    getNodeA l i = some n → i < l.length := by
  intro l
  induction l with
  | nil => intro i n h; simp [getNodeA] at h
  | cons x t ih =>
    intro i n h
    cases i with
    | zero => simp
    | succ j =>
      simp only [getNodeA] at h
      have := ih j n h
      simpa [Nat.succ_lt_succ_iff] using this

theorem getNodeA_mem : ∀ (l : List Node) (i : Nat) (n : Node),
    getNodeA l i = some n → n ∈ l := by
  intro l
  induction l with
  | nil => intro i n h; simp [getNodeA] at h
  | cons x t ih =>
    intro i n h
    cases i with
    | zero =>
      simp only [getNodeA, Option.some.injEq] at h
      simp [h]
    | succ j =>
      simp only [getNodeA] at h
      exact List.mem_cons_of_mem x (ih j n h)

theorem getNodeA_append_lt : ∀ (l l2 : List Node) (i : Nat),
    i < l.length → getNodeA (l ++ l2) i = getNodeA l i := by
  intro l
  induction l with
  | nil => intro l2 i h; simp at h
  | cons x t ih =>
    intro l2 i h
    cases i with
    | zero => simp [getNodeA]
    | succ j =>
      simp only [List.cons_append, getNodeA]
      exact ih l2 j (by simpa [Nat.succ_lt_succ_iff] using h)

theorem getNodeA_append_self : ∀ (l : List Node) (x : Node),
    getNodeA (l ++ [x]) l.length = some x := by
  intro l
  induction l with
  | nil => intro x; simp [getNodeA]
  | cons y t ih => intro x; simpa [getNodeA] using ih x

theorem getNodeA_set_self : ∀ (l : List Node) (i : Nat) (x : Node),
    i < l.length → getNodeA (setNodeA l i x) i = some x := by
  intro l
  induction l with
  | nil => intro i x h; simp at h
  | cons y t ih =>
    intro i x h
    cases i with
    | zero => simp [setNodeA, getNodeA]
    | succ j =>
      simp only [setNodeA, getNodeA]
      exact ih j x (by simpa [Nat.succ_lt_succ_iff] using h)

theorem getNodeA_set_ne : ∀ (l : List Node) (i j : Nat) (x : Node),
    i ≠ j → getNodeA (setNodeA l i x) j = getNodeA l j := by
  intro l
  induction l with
  | nil => intro i j x _; simp [setNodeA]
  | cons y t ih =>
    intro i j x hij
    cases i with
    | zero =>
      cases j with
      | zero => exact absurd rfl hij
      | succ k => simp [setNodeA, getNodeA]
    | succ i' =>
      cases j with
      | zero => simp [setNodeA, getNodeA]
      | succ k =>
        simp only [setNodeA, getNodeA]
        exact ih i' k x (fun h => hij (by simp [h]))

theorem wfInitial_spec (arena : List Node) (hwf : wfInitial arena = true)
    (i : Nat) (n : Node) (c : Nat) (hn : getNodeA arena i = some n)
    (hc : n.initial = some c) : c ∈ n.children := by
  have hmem := getNodeA_mem arena i n hn
  have := List.all_eq_true.mp hwf n hmem
  rw [hc] at this
  simpa using this

/-! ## C7: a guard returning False vetoes the whole transition -/

/-- C7: for a dispatch whose resolved transition carries a guard, if the
guard (a boolean-valued predicate that does not itself raise) returns
`False`, `handle_event` invokes none of the resolved
exit/transition/entry methodcallers, leaves the current state unchanged
and returns normally — through `_handle_event_normal` as well as through
`_handle_event_optimized`. -/
theorem c7_guard_veto (F : Nat) (b : Behav) (m : Machine) (ev cur g : Nat)
    (calls : List Nat) (tgt : Nat) (tgtO : Option Nat)
    (hhand : m.handling = false) (hcur : m.current = some cur)
    (hgt : b.gThrows g = false) (hgr : b.gRet g = false) :
    (m.mode = .normal →
      gmcF m.s.arena m.s.states F ev cur = some (some g, calls, tgt) →
      handleEventF b F m ev = some (m, [], none)) ∧
    (m.mode = .optimized →
      lookupTables m.s.tables cur ev = ⟨some g, calls, tgtO⟩ →
      handleEventF b F m ev = some (m, [], none)) := by
  obtain ⟨ms, mc, mh, mm⟩ := m
  simp only at hhand hcur
  subst hhand hcur
  constructor
  · intro hmode hgmc
    simp only at hmode hgmc
    subst hmode
    simp [handleEventF, handleEventNormalF, hgmc, hgt, hgr]
  · intro hmode htbl
    simp only at hmode htbl
    subst hmode
    simp [handleEventF, handleEventOptimizedF, htbl, hgt, hgr]

/-- Witness for C7 at the optimized traffic light resting in Red, with an
actions object whose guard 71 returns `False`: both dispatch modes leave
the machine untouched. -/
theorem c7_guard_veto_witness :
    ((⟨tlightO, some 1, false, .normal⟩ : Machine).mode = .normal ∧
      gmcF tlightO.arena tlightO.states (fuelOf tlight) 5 1 = some (some 71, [61, 30], 2) ∧
      handleEventF vetoBehav (fuelOf tlight) ⟨tlightO, some 1, false, .normal⟩ 5 =
        some (⟨tlightO, some 1, false, .normal⟩, [], none)) ∧
    ((⟨tlightO, some 1, false, .optimized⟩ : Machine).mode = .optimized ∧
      lookupTables tlightO.tables 1 5 = ⟨some 71, [61, 30], some 2⟩ ∧
      handleEventF vetoBehav (fuelOf tlight) ⟨tlightO, some 1, false, .optimized⟩ 5 =
        some (⟨tlightO, some 1, false, .optimized⟩, [], none)) := by
  refine ⟨⟨rfl, by decide, ?_⟩, ⟨rfl, by decide, ?_⟩⟩
  · exact (c7_guard_veto (fuelOf tlight) vetoBehav ⟨tlightO, some 1, false, .normal⟩
      5 1 71 [61, 30] 2 (some 2) rfl rfl rfl rfl).1 rfl (by decide)
  · exact (c7_guard_veto (fuelOf tlight) vetoBehav ⟨tlightO, some 1, false, .optimized⟩
      5 1 71 [61, 30] 2 (some 2) rfl rfl rfl rfl).2 rfl (by decide)

/-! ## C8: reentrancy is rejected -/

/-- C8, counterexample to the claim as stated: during a dispatch (the
reentrancy flag is set), a nested `set_state` call with an identifier
not known to the structure fails with the unknown-state error — not with
the `ReentrantEvent` error — because `set_state` tests membership before
the reentrancy flag. -/
theorem c8_counterexample :
    setStateF tlBusyM 99 = (tlBusyM, some .stateUnknown) ∧
    (some RunError.stateUnknown ≠ some RunError.reentrant) := by
  constructor
  · decide
  · decide

/-- C8 (amended): while a dispatch is in progress on a machine, a nested
`handle_event` call fails with `ReentrantEvent`, a nested `set_state`
call fails with `ReentrantEvent` when the identifier is known (and with
the unknown-state error otherwise), and every such rejected inner call
returns the machine unchanged — nothing is queued, so the outer
dispatch's remaining action sequence and resulting state are
unaffected. -/
theorem c8_reentrancy_rejected (b : Behav) (F : Nat) (m : Machine) (ev sid : Nat)
    (hhand : m.handling = true) :
    (m.mode = .normal → handleEventF b F m ev = some (m, [], some .reentrant)) ∧
    (m.mode = .optimized → handleEventF b F m ev = some (m, [], some .reentrant)) ∧
    (hasKey m.s.states sid = true → setStateF m sid = (m, some .reentrant)) ∧
    (hasKey m.s.states sid = false → setStateF m sid = (m, some .stateUnknown)) := by
  refine ⟨?_, ?_, ?_, ?_⟩
  · intro hmode; simp [handleEventF, hmode, handleEventNormalF, hhand]
  · intro hmode; simp [handleEventF, hmode, handleEventOptimizedF, hhand]
  · intro hk; simp [setStateF, hk, hhand]
  · intro hk; simp [setStateF, hk]

/-- Witness for C8 on the traffic-light machine mid-dispatch: the nested
`handle_event` and the nested `set_state` (known identifier 2) are both
rejected with `ReentrantEvent` and change nothing. -/
theorem c8_reentrancy_rejected_witness :
    tlBusyM.handling = true ∧
    ((tlBusyM.mode = .normal →
        handleEventF calmBehav (fuelOf tlight) tlBusyM 5 = some (tlBusyM, [], some .reentrant)) ∧
     (tlBusyM.mode = .optimized →
        handleEventF calmBehav (fuelOf tlight) tlBusyM 5 = some (tlBusyM, [], some .reentrant)) ∧
     (hasKey tlBusyM.s.states 2 = true → setStateF tlBusyM 2 = (tlBusyM, some .reentrant)) ∧
     (hasKey tlBusyM.s.states 2 = false → setStateF tlBusyM 2 = (tlBusyM, some .stateUnknown))) :=
  ⟨rfl, c8_reentrancy_rejected calmBehav (fuelOf tlight) tlBusyM 5 2 rfl⟩

/-! ## C6: init() descends to a leaf -/

theorem checkList_mem (chk : Nat → Option Bool) (arena : List Node) (pi : Nat) :
    ∀ (l : List Nat) (c : Nat), checkList chk arena pi l = some true → c ∈ l →
      chk c = some true := by
  intro l
  induction l with
  | nil => intro c _ hmem; cases hmem
  | cons c0 cs ih =>
    intro c h hmem
    unfold checkList at h
    cases hn : getNodeA arena c0 with
    | none => simp [hn] at h
    | some cn =>
      simp only [hn] at h
      by_cases hp : cn.parent = some pi
      · rw [if_pos hp] at h
        cases hchk : chk c0 with
        | none => rw [hchk] at h; cases h
        | some bv =>
          rw [hchk] at h
          cases bv with
          | false => simp at h
          | true =>
            cases hmem with
            | head => exact hchk
            | tail _ hm => exact ih c h hm
      · rw [if_neg hp] at h
        simp at h

theorem check_desc (arena : List Node) (b : Behav)
    (hb : ∀ a, b.aThrows a = false) (hwf : wfInitial arena = true) :
    ∀ (F i : Nat), checkConsistencyF arena F i = some true →
      ∃ p t, descPathF arena F i = some (p, t) ∧
        (∃ n, getNodeA arena t = some n ∧ n.children = []) ∧
        descendInitF b arena F i = some (entriesOfPath arena p, some t) := by
  intro F
  induction F with
  | zero => intro i h; simp [checkConsistencyF] at h
  | succ f ih =>
    intro i h
    unfold checkConsistencyF at h
    cases hn : getNodeA arena i with
    | none => simp [hn] at h
    | some n =>
      simp only [hn] at h
      by_cases hcond : n.initial = none ∧ n.children ≠ []
      · rw [if_pos hcond] at h; simp at h
      · rw [if_neg hcond] at h
        cases hini : n.initial with
        | none =>
          have hch : n.children = [] := by
            by_contra hne
            exact hcond ⟨hini, hne⟩
          refine ⟨[i], i, ?_, ⟨n, hn, hch⟩, ?_⟩
          · simp [descPathF, hn, hini]
          · cases he : n.entry with
            | none => simp [descendInitF, hn, he, hini, entriesOfPath]
            | some a => simp [descendInitF, hn, he, hini, hb a, entriesOfPath]
        | some c =>
          have hc : c ∈ n.children := wfInitial_spec arena hwf i n c hn hini
          have hchk : checkConsistencyF arena f c = some true :=
            checkList_mem (checkConsistencyF arena f) arena i n.children c h hc
          obtain ⟨p, t, hdp, hleaf, hdi⟩ := ih c hchk
          refine ⟨i :: p, t, ?_, hleaf, ?_⟩
          · simp [descPathF, hn, hini, hdp]
          · cases he : n.entry with
            | none => simp [descendInitF, hn, he, hini, hdi, entriesOfPath]
            | some a => simp [descendInitF, hn, he, hini, hb a, hdi, entriesOfPath]

/-- C6: on a machine over a structure whose consistency check passes,
`init()` descends from the root along initial-child links: the final
current state is a leaf (no children), and the trace of invoked actions
is exactly the entry actions of the nodes on that root-to-leaf path, in
root-to-leaf order, each once, nothing else (entry actions are assumed
not to raise).  If the consistency check fails, `init()` aborts with the
inconsistency error before invoking any entry action, and the machine —
in particular its unset current state — is unchanged. -/
theorem c6_init_descends_to_leaf (F : Nat) (b : Behav) (s : Structure) (rid ri : Nat)
    (u : Bool)
    (hb : ∀ a, b.aThrows a = false)
    (hwf : wfInitial s.arena = true)
    (hroot : s.root = some rid)
    (hri : lookupA s.states rid = some ri) :
    (checkConsistencyF s.arena F ri = some true →
      ∃ p t, descPathF s.arena F ri = some (p, t) ∧
        (∃ n, getNodeA s.arena t = some n ∧ n.children = []) ∧
        initF b F (mkMachine s) u =
          some (⟨s, some t, false, if u && s.isOptimized then .optimized else .normal⟩,
            entriesOfPath s.arena p, none)) ∧
    (checkConsistencyF s.arena F ri = some false →
      initF b F (mkMachine s) u = some (mkMachine s, [], some .inconsistent)) := by
  constructor
  · intro hc
    obtain ⟨p, t, hdp, hleaf, hdi⟩ := check_desc s.arena b hb hwf F ri hc
    refine ⟨p, t, hdp, hleaf, ?_⟩
    simp [initF, mkMachine, initCoreF, hroot, hri, hc, hdi]
  · intro hc
    simp [initF, mkMachine, initCoreF, hroot, hri, hc]

/-- Witness for C6 on the traffic light: the consistency check passes,
the descent path is root (index 0) then Red (index 1), Red is a leaf,
and the trace is the single entry action 20. -/
theorem c6_init_descends_to_leaf_witness :
    ((∀ a, calmBehav.aThrows a = false) ∧ wfInitial tlight.arena = true ∧
      tlight.root = some 1 ∧ lookupA tlight.states 1 = some 0 ∧
      checkConsistencyF tlight.arena (fuelOf tlight) 0 = some true) ∧
    (∃ p t, descPathF tlight.arena (fuelOf tlight) 0 = some (p, t) ∧
      (∃ n, getNodeA tlight.arena t = some n ∧ n.children = []) ∧
      initF calmBehav (fuelOf tlight) (mkMachine tlight) true =
        some (⟨tlight, some t, false,
          if true && tlight.isOptimized then .optimized else .normal⟩,
          entriesOfPath tlight.arena p, none)) :=
  ⟨⟨fun _ => rfl, by decide, by decide, by decide, by decide⟩,
   (c6_init_descends_to_leaf (fuelOf tlight) calmBehav tlight 1 0 true
     (fun _ => rfl) (by decide) (by decide) (by decide)).1 (by decide)⟩

/-! ## C9: exit() re-enables init() -/

/-- C9, counterexample to the claim as stated: on the structure whose
only (root) state carries the falsy identifier 0, `init()` succeeds, but
`exit()` then crashes with a `KeyError` before resetting anything — the
`current_state` property returns the node's `str(id(self))` fallback
name, which is not a key of the states dictionary — so the machine stays
initialized and the following `init()` fails with the
already-initialized error. -/
theorem c9_counterexample :
    initF calmBehav (fuelOf zeroS) (mkMachine zeroS) true = some (zeroM, [], none) ∧
    exitF calmBehav (fuelOf zeroS) zeroM = some (zeroM, [], some .pyCrash) ∧
    initF calmBehav (fuelOf zeroS) zeroM true = some (zeroM, [], some .alreadyInitialized) := by
  refine ⟨by decide, by decide, by decide⟩

theorem initCore_no_already (b : Behav) (F : Nat) (m : Machine) (u : Bool)
    (m' : Machine) (tr : List Nat) :
    initCoreF b F m u ≠ some (m', tr, some .alreadyInitialized) := by
  intro h
  unfold initCoreF at h
  repeat' split at h
  all_goals simp_all

/-- C9 (amended): `init()` fails with the already-initialized error
precisely when a dispatch method is currently installed; and whenever
`exit()` returns normally it has cleared the current state and reset the
dispatch method to the not-initialized stub, so the following `init()`
is not rejected and re-runs the full initialization body (consistency
check and entry descent included).  `exit()` does return normally from
every state with a truthy identifier and non-raising exit actions, but
not from a state with a falsy identifier, where it raises before
resetting and a later `init()` still fails as already initialized. -/
theorem c9_exit_reenables_init (b : Behav) (F : Nat) (u : Bool) :
    (∀ m : Machine,
      (∃ m' tr, initF b F m u = some (m', tr, some .alreadyInitialized)) ↔
        m.mode ≠ .notInitialized) ∧
    (∀ (m m' : Machine) (tr : List Nat),
      exitF b F m = some (m', tr, none) →
        m' = { m with current := none, mode := .notInitialized } ∧
        initF b F m' u = initCoreF b F m' u) := by
  constructor
  · intro m
    constructor
    · rintro ⟨m', tr, h⟩
      intro hmode
      simp only [initF, hmode, ne_eq, not_true_eq_false, if_false, not_false_eq_true,
        ite_false] at h
      exact initCore_no_already b F m u m' tr h
    · intro hmode
      refine ⟨m, [], ?_⟩
      unfold initF
      rw [if_pos hmode]
  · intro m m' tr h
    unfold exitF at h
    have hm' : m' = { m with current := none, mode := .notInitialized } := by
      iterate 6
        all_goals (try simp only [] at h)
        all_goals (try split at h)
      all_goals simp_all
    refine ⟨hm', ?_⟩
    rw [hm']
    simp [initF]

/-- Witness for C9 (amended) on the traffic-light machine resting in Red:
`init()` on it is rejected as already initialized, `exit()` returns
normally having reset it, and the subsequent `init()` runs the full init
body. -/
theorem c9_exit_reenables_init_witness :
    (tlM.mode ≠ .notInitialized ∧
      (∃ m' tr, initF calmBehav (fuelOf tlight) tlM true =
        some (m', tr, some .alreadyInitialized))) ∧
    (exitF calmBehav (fuelOf tlight) tlM =
        some (⟨tlight, none, false, .notInitialized⟩, [], none) ∧
      (⟨tlight, none, false, .notInitialized⟩ : Machine) =
        { tlM with current := none, mode := .notInitialized } ∧
      initF calmBehav (fuelOf tlight) ⟨tlight, none, false, .notInitialized⟩ true =
        initCoreF calmBehav (fuelOf tlight) ⟨tlight, none, false, .notInitialized⟩ true) :=
  ⟨⟨by decide,
    ((c9_exit_reenables_init calmBehav (fuelOf tlight) true).1 tlM).mpr (by decide)⟩,
   ⟨by decide,
    ((c9_exit_reenables_init calmBehav (fuelOf tlight) true).2 tlM
      ⟨tlight, none, false, .notInitialized⟩ [] (by decide)).1,
    ((c9_exit_reenables_init calmBehav (fuelOf tlight) true).2 tlM
      ⟨tlight, none, false, .notInitialized⟩ [] (by decide)).2⟩⟩

/-! ## C10: a raising guard/action leaves the machine wedged -/

/-- C10, counterexample to the claim as stated: after an action raised
during `handle_event` (handle 30 raises while dispatching event 5 from
Red), a subsequent `set_state` call with an unknown identifier fails
with the unknown-state error, not with the `ReentrantEvent` error. -/
theorem c10_counterexample :
    handleEventF throw30Behav (fuelOf tlight) tlM 5 =
      some (tlBusyM, [61, 30], some .raised) ∧
    setStateF tlBusyM 99 = (tlBusyM, some .stateUnknown) ∧
    (some RunError.stateUnknown ≠ some RunError.reentrant) := by
  refine ⟨by decide, by decide, by decide⟩

theorem normal_raised_shape (b : Behav) (F : Nat) (m m' : Machine) (ev : Nat)
    (tr : List Nat)
    (h : handleEventNormalF b F m ev = some (m', tr, some .raised)) :
    m' = { m with handling := true } := by
  unfold handleEventNormalF at h
  by_cases hh : m.handling
  · simp [hh] at h
  · simp only [hh, if_false, Bool.false_eq_true] at h
    cases hc : m.current with
    | none => simp [hc] at h
    | some cur =>
      simp only [hc] at h
      cases hg : gmcF m.s.arena m.s.states F ev cur with
      | none => simp [hg] at h
      | some trip =>
        obtain ⟨g, calls, tgt⟩ := trip
        simp only [hg] at h
        cases g with
        | none =>
          simp only at h
          by_cases hr : (runCalls b calls).2
          · simp [hr] at h; exact h.1.symm
          · simp [hr] at h
        | some gid =>
          simp only at h
          by_cases ht : b.gThrows gid
          · simp [ht] at h; exact h.1.symm
          · simp only [ht, if_false, Bool.false_eq_true] at h
            by_cases hret : b.gRet gid = false
            · simp [hret] at h
            · simp only [hret, if_false] at h
              by_cases hr : (runCalls b calls).2
              · simp [hr] at h; exact h.1.symm
              · simp [hr] at h

theorem optimized_raised_shape (b : Behav) (m m' : Machine) (ev : Nat)
    (tr : List Nat)
    (h : handleEventOptimizedF b m ev = (m', tr, some .raised)) :
    m' = { m with handling := true } := by
  unfold handleEventOptimizedF at h
  by_cases hh : m.handling
  · simp [hh] at h
  · simp only [hh, if_false, Bool.false_eq_true] at h
    cases hc : m.current with
    | none => simp [hc] at h
    | some cur =>
      simp only [hc] at h
      cases hg : (lookupTables m.s.tables cur ev).guard with
      | none =>
        simp only [hg] at h
        by_cases hr : (runCalls b (lookupTables m.s.tables cur ev).calls).2
        · simp [hr] at h; exact h.1.symm
        · simp only [hr, if_false, Bool.false_eq_true] at h
          cases ht : (lookupTables m.s.tables cur ev).target <;> simp [ht] at h
      | some gid =>
        simp only [hg] at h
        by_cases ht : b.gThrows gid
        · simp [ht] at h; exact h.1.symm
        · simp only [ht, if_false, Bool.false_eq_true] at h
          by_cases hret : b.gRet gid = false
          · simp [hret] at h
          · simp only [hret, if_false] at h
            by_cases hr : (runCalls b (lookupTables m.s.tables cur ev).calls).2
            · simp [hr] at h; exact h.1.symm
            · simp only [hr, if_false, Bool.false_eq_true] at h
              cases htg : (lookupTables m.s.tables cur ev).target <;> simp [htg] at h

/-- C10 (amended): when a guard or action raises during `handle_event`,
the exception propagates with the reentrancy flag still set and the
current state still what it was when the dispatch started (the new state
is only assigned after all actions complete); consequently every
subsequent `handle_event` call fails with `ReentrantEvent`, and so does
every subsequent `set_state` call whose identifier is known to the
structure (an unknown identifier yields the unknown-state error
instead). -/
theorem c10_raise_wedges_machine (b : Behav) (F : Nat) (m m' : Machine) (ev : Nat)
    (tr : List Nat)
    (h : handleEventF b F m ev = some (m', tr, some .raised)) :
    m'.handling = true ∧ m'.current = m.current ∧ m'.s = m.s ∧ m'.mode = m.mode ∧
    (∀ e2, handleEventF b F m' e2 = some (m', [], some .reentrant)) ∧
    (∀ sid, hasKey m'.s.states sid = true → setStateF m' sid = (m', some .reentrant)) := by
  have hm' : m' = { m with handling := true } := by
    cases hmode : m.mode with
    | notInitialized => simp [handleEventF, hmode] at h
    | normal =>
      simp only [handleEventF, hmode] at h
      rw [normal_raised_shape b F m m' ev tr h, hmode]
    | optimized =>
      simp only [handleEventF, hmode, Option.some.injEq] at h
      rw [optimized_raised_shape b m m' ev tr h, hmode]
  subst hm'
  refine ⟨rfl, rfl, rfl, rfl, ?_, ?_⟩
  · intro e2
    cases hmode : m.mode with
    | notInitialized => simp [handleEventF, hmode] at h ⊢
    | normal => simp [handleEventF, hmode, handleEventNormalF]
    | optimized => simp [handleEventF, hmode, handleEventOptimizedF]
  · intro sid hk
    simp only at hk
    simp [setStateF, hk]

/-! ## Characterization of the optimized tables -/

theorem doOptimize_fields (F : Nat) (s s' : Structure) (h : doOptimize F s = some s') :
    s'.arena = s.arena ∧ s'.states = s.states ∧ s'.isOptimized = true ∧
    buildTables s.arena s.states F (allEvents s) (leafIndices s) = some s'.tables := by
  unfold doOptimize at h
  cases hb : buildTables s.arena s.states F (allEvents s) (leafIndices s) with
  | none => rw [hb] at h; cases h
  | some tbls =>
    rw [hb] at h
    simp only [Option.some.injEq] at h
    subst h
    refine ⟨rfl, rfl, rfl, ?_⟩
    simp [hb]

theorem mkLeafTable_char (arena : List Node) (states : List (Nat × Nat)) (F : Nat) :
    ∀ (evs : List Nat) (li : Nat) (tbl : List (Nat × OptTriple)),
      mkLeafTable arena states F evs li = some tbl →
      (∀ ev, ev ∈ evs → ∃ g calls tgt,
        gmcF arena states F ev li = some (g, calls, tgt) ∧
        lookupA tbl ev = some ⟨g, calls, some tgt⟩) ∧
      (∀ ev, ev ∉ evs → lookupA tbl ev = none) ∧
      (∀ ev v, lookupA tbl ev = some v → ∃ g calls tgt,
        gmcF arena states F ev li = some (g, calls, tgt) ∧ v = ⟨g, calls, some tgt⟩) := by
  intro evs
  induction evs with
  | nil =>
    intro li tbl h
    simp only [mkLeafTable, Option.some.injEq] at h
    subst h
    refine ⟨by simp, fun ev _ => rfl, fun ev v hv => by simp [lookupA] at hv⟩
  | cons e es ih =>
    intro li tbl h
    unfold mkLeafTable at h
    cases hg : gmcF arena states F e li with
    | none => rw [hg] at h; cases h
    | some tr =>
      rw [hg] at h
      cases hrest : mkLeafTable arena states F es li with
      | none => rw [hrest] at h; cases h
      | some tbl' =>
        rw [hrest] at h
        simp only [Option.some.injEq] at h
        subst h
        obtain ⟨g0, calls0, tgt0⟩ := tr
        obtain ⟨ihmem, ihnot, ihlk⟩ := ih li tbl' hrest
        refine ⟨?_, ?_, ?_⟩
        · intro ev hmem
          by_cases hev : e = ev
          · subst hev
            exact ⟨g0, calls0, tgt0, hg, by simp [lookupA]⟩
          · have : ev ∈ es := by
              cases hmem with
              | head => exact absurd rfl hev
              | tail _ hm => exact hm
            obtain ⟨g, calls, tgt, hgm, hlk⟩ := ihmem ev this
            exact ⟨g, calls, tgt, hgm, by simp only [lookupA, if_neg hev]; exact hlk⟩
        · intro ev hnot
          have hev : ¬ e = ev := fun hh => hnot (hh ▸ List.mem_cons_self e es)
          have : ev ∉ es := fun hh => hnot (List.mem_cons_of_mem e hh)
          simp only [lookupA, if_neg hev]
          exact ihnot ev this
        · intro ev v hv
          by_cases hev : e = ev
          · subst hev
            simp [lookupA] at hv
            exact ⟨g0, calls0, tgt0, hg, hv.symm⟩
          · simp only [lookupA, if_neg hev] at hv
            exact ihlk ev v hv

theorem buildTables_mem (arena : List Node) (states : List (Nat × Nat)) (F : Nat)
    (evs : List Nat) :
    ∀ (leafs : List Nat) (tbls : List (Nat × List (Nat × OptTriple))) (li : Nat),
      buildTables arena states F evs leafs = some tbls → li ∈ leafs →
      ∃ tbl, lookupA tbls li = some tbl ∧ mkLeafTable arena states F evs li = some tbl := by
  intro leafs
  induction leafs with
  | nil => intro tbls li _ hmem; cases hmem
  | cons l ls ih =>
    intro tbls li h hmem
    unfold buildTables at h
    cases hmk : mkLeafTable arena states F evs l with
    | none => rw [hmk] at h; cases h
    | some tbl0 =>
      rw [hmk] at h
      cases hrest : buildTables arena states F evs ls with
      | none => rw [hrest] at h; cases h
      | some tbls' =>
        rw [hrest] at h
        simp only [Option.some.injEq] at h
        subst h
        by_cases hl : l = li
        · subst hl
          exact ⟨tbl0, by simp [lookupA], hmk⟩
        · have : li ∈ ls := by
            cases hmem with
            | head => exact absurd rfl hl
            | tail _ hm => exact hm
          obtain ⟨tbl, hlk, hmk2⟩ := ih tbls' li hrest this
          exact ⟨tbl, by simp only [lookupA, if_neg hl]; exact hlk, hmk2⟩

theorem buildTables_lookup (arena : List Node) (states : List (Nat × Nat)) (F : Nat)
    (evs : List Nat) :
    ∀ (leafs : List Nat) (tbls : List (Nat × List (Nat × OptTriple))) (li : Nat)
      (tbl : List (Nat × OptTriple)),
      buildTables arena states F evs leafs = some tbls →
      lookupA tbls li = some tbl →
      mkLeafTable arena states F evs li = some tbl := by
  intro leafs
  induction leafs with
  | nil =>
    intro tbls li tbl h hlk
    simp only [buildTables, Option.some.injEq] at h
    subst h
    simp [lookupA] at hlk
  | cons l ls ih =>
    intro tbls li tbl h hlk
    unfold buildTables at h
    cases hmk : mkLeafTable arena states F evs l with
    | none => rw [hmk] at h; cases h
    | some tbl0 =>
      rw [hmk] at h
      cases hrest : buildTables arena states F evs ls with
      | none => rw [hrest] at h; cases h
      | some tbls' =>
        rw [hrest] at h
        simp only [Option.some.injEq] at h
        subst h
        by_cases hl : l = li
        · subst hl
          simp only [lookupA, if_pos rfl, Option.some.injEq] at hlk
          rw [← hlk]
          exact hmk
        · simp only [lookupA, if_neg hl] at hlk
          exact ih tbls' li tbl hrest hlk

theorem walkUp_not_found (arena : List Node) (ev : Nat)
    (hno : ∀ n ∈ arena, lookupA n.events ev = none) :
    ∀ (f i : Nat) (acc : List Nat) (r : Option (Nat × Trans) × List Nat),
      walkUpF arena ev f i acc = some r → r.1 = none := by
  intro f
  induction f with
  | zero => intro i acc r h; simp [walkUpF] at h
  | succ f ih =>
    intro i acc r h
    unfold walkUpF at h
    cases hn : getNodeA arena i with
    | none => rw [hn] at h; cases h
    | some n =>
      rw [hn] at h
      simp only [hno n (getNodeA_mem arena i n hn)] at h
      cases hp : n.parent with
      | some p =>
        rw [hp] at h
        exact ih p (acc ++ [i]) r h
      | none =>
        rw [hp] at h
        simp only [Option.some.injEq] at h
        rw [← h]

theorem gmc_unhandled (arena : List Node) (states : List (Nat × Nat)) (F ev cur : Nat)
    (hno : ∀ n ∈ arena, lookupA n.events ev = none)
    (r : Option Nat × List Nat × Nat) (h : gmcF arena states F ev cur = some r) :
    r = (none, [], cur) := by
  unfold gmcF at h
  cases hw : walkUpF arena ev F cur [] with
  | none => rw [hw] at h; cases h
  | some pr =>
    obtain ⟨o, ns⟩ := pr
    have ho : o = none := walkUp_not_found arena ev hno F cur [] (o, ns) hw
    subst ho
    rw [hw] at h
    simp only [Option.some.injEq] at h
    exact h.symm

/-! ## C2: unhandled events are silent no-ops -/

/-- C2: for an initialized machine resting in leaf `L` and an event that
neither `L` nor any of its ancestors up to the root defines (the
hypothesis is phrased as: the handler walk reaches the root without
finding a transition), `_get_methodcallers` returns
`(no guard, empty action list, L)` and `handle_event` raises no error,
invokes zero handles on the actions object and leaves the current state
at `L` — in the unoptimized mode and, on the structure produced by
`do_optimize`, in the optimized mode (also when the event is absent from
the optimized table entirely). -/
theorem c2_unhandled_event_noop (F : Nat) (s s' : Structure) (b : Behav) (ev L : Nat)
    (ns : List Nat)
    (hopt : doOptimize F s = some s')
    (hwalk : walkUpF s.arena ev F L [] = some (none, ns)) :
    gmcF s.arena s.states F ev L = some (none, [], L) ∧
    (∀ m : Machine, m.s = s → m.current = some L → m.handling = false →
      m.mode = .normal → handleEventF b F m ev = some (m, [], none)) ∧
    (∀ m : Machine, m.s = s' → m.current = some L → m.handling = false →
      m.mode = .optimized → handleEventF b F m ev = some (m, [], none)) := by
  have hgmc : gmcF s.arena s.states F ev L = some (none, [], L) := by
    unfold gmcF
    rw [hwalk]
  obtain ⟨ha, hst, _, hbt⟩ := doOptimize_fields F s s' hopt
  have htr : lookupTables s'.tables L ev = ⟨none, [], none⟩ ∨
      lookupTables s'.tables L ev = ⟨none, [], some L⟩ := by
    cases hlk : lookupA s'.tables L with
    | none => exact Or.inl (by simp [lookupTables, hlk])
    | some tbl =>
      have hmk := buildTables_lookup s.arena s.states F (allEvents s)
        (leafIndices s) s'.tables L tbl hbt hlk
      cases hlk2 : lookupA tbl ev with
      | none => exact Or.inl (by simp [lookupTables, hlk, hlk2])
      | some v =>
        obtain ⟨g, calls, tgt, hg2, hv⟩ :=
          (mkLeafTable_char s.arena s.states F (allEvents s) L tbl hmk).2.2 ev v hlk2
        rw [hgmc] at hg2
        simp only [Option.some.injEq, Prod.mk.injEq] at hg2
        refine Or.inr ?_
        simp only [lookupTables, hlk, hlk2, hv, ← hg2.1, ← hg2.2.1, ← hg2.2.2]
  refine ⟨hgmc, ?_, ?_⟩
  · intro m hms hcur hhand hmode
    obtain ⟨ms, mc, mh, mm⟩ := m
    simp only at hms hcur hhand hmode
    subst hms hcur hhand hmode
    simp [handleEventF, handleEventNormalF, hgmc, runCalls]
  · intro m hms hcur hhand hmode
    obtain ⟨ms, mc, mh, mm⟩ := m
    simp only at hms hcur hhand hmode
    subst hms hcur hhand hmode
    cases htr with
    | inl h2 => simp [handleEventF, handleEventOptimizedF, h2, runCalls]
    | inr h2 => simp [handleEventF, handleEventOptimizedF, h2, runCalls]

/-- Witness for C2 on the traffic light: event 99 is defined nowhere, the
walk from Red reaches the root finding nothing, and both machines ignore
the event. -/
theorem c2_unhandled_event_noop_witness :
    (doOptimize (fuelOf tlight) tlight = some tlightO ∧
      walkUpF tlight.arena 99 (fuelOf tlight) 1 [] = some (none, [1, 0])) ∧
    gmcF tlight.arena tlight.states (fuelOf tlight) 99 1 = some (none, [], 1) ∧
    handleEventF calmBehav (fuelOf tlight) tlM 99 = some (tlM, [], none) ∧
    handleEventF calmBehav (fuelOf tlight) ⟨tlightO, some 1, false, .optimized⟩ 99 =
      some (⟨tlightO, some 1, false, .optimized⟩, [], none) := by
  have h := c2_unhandled_event_noop (fuelOf tlight) tlight tlightO calmBehav 99 1 [1, 0]
    (by decide) (by decide)
  exact ⟨⟨by decide, by decide⟩, h.1,
    h.2.1 tlM rfl rfl rfl rfl,
    h.2.2 ⟨tlightO, some 1, false, .optimized⟩ rfl rfl rfl rfl⟩

/-! ## C1: optimized dispatch refines walking dispatch -/

/-- C1: on a structure on which `do_optimize()` has been run (and, being
data, is unmodified afterwards), for every leaf state and every event —
also events no state defines — dispatching through the optimized table
produces exactly the same outcome (machine, invoked-handle trace, raised
error) as dispatching through `_handle_event_normal`, whenever the
walking dispatch completes; and the cached `(guard, action list,
target)` triple agrees with the one `_get_methodcallers` computes, where
a cached target of `None` means the current leaf is kept.  The
`hcov` hypothesis states that any node holding a transition for the
event is listed in the states dictionary, which the build API
guarantees. -/
theorem c1_optimized_refines_normal (F : Nat) (s s' : Structure) (b : Behav)
    (m : Machine) (ev li : Nat) (r : DispatchRes)
    (hopt : doOptimize F s = some s')
    (hms : m.s = s') (hhand : m.handling = false) (hcur : m.current = some li)
    (hleaf : li ∈ leafIndices s)
    (hcov : evDefinedInArena s.arena ev = true → ev ∈ allEvents s)
    (hnorm : handleEventNormalF b F m ev = some r) :
    handleEventOptimizedF b m ev = r ∧
    (∀ g calls tgt, gmcF s.arena s.states F ev li = some (g, calls, tgt) →
      (lookupTables s'.tables li ev).guard = g ∧
      (lookupTables s'.tables li ev).calls = calls ∧
      (match (lookupTables s'.tables li ev).target with
       | some x => x
       | none => li) = tgt) := by
  obtain ⟨ha, hst, _, hbt⟩ := doOptimize_fields F s s' hopt
  obtain ⟨ms, mc, mh, mm⟩ := m
  simp only at hms hhand hcur
  subst hms hhand hcur
  unfold handleEventNormalF at hnorm
  simp only [Bool.false_eq_true, if_false, ha, hst] at hnorm
  cases hg : gmcF s.arena s.states F ev li with
  | none => rw [hg] at hnorm; cases hnorm
  | some trip =>
    obtain ⟨g, calls, tgt⟩ := trip
    rw [hg] at hnorm
    have htbl : lookupTables ms.tables li ev = ⟨g, calls, some tgt⟩ ∨
        (lookupTables ms.tables li ev = ⟨none, [], none⟩ ∧
          g = none ∧ calls = [] ∧ tgt = li) := by
      obtain ⟨tbl, hlk, hmk⟩ := buildTables_mem s.arena s.states F (allEvents s)
        (leafIndices s) ms.tables li hbt hleaf
      by_cases hev : ev ∈ allEvents s
      · left
        obtain ⟨g2, calls2, tgt2, hg2, hlk2⟩ :=
          (mkLeafTable_char s.arena s.states F (allEvents s) li tbl hmk).1 ev hev
        rw [hg] at hg2
        simp only [Option.some.injEq, Prod.mk.injEq] at hg2
        simp only [lookupTables, hlk, hlk2, hg2.1, hg2.2.1, hg2.2.2]
      · right
        have hno : ∀ n ∈ s.arena, lookupA n.events ev = none := by
          intro n hmem
          cases hl : lookupA n.events ev with
          | none => rfl
          | some tr0 =>
            exfalso
            apply hev
            apply hcov
            unfold evDefinedInArena
            rw [List.any_eq_true]
            exact ⟨n, hmem, by rw [hl]; rfl⟩
        have hx := gmc_unhandled s.arena s.states F ev li hno (g, calls, tgt) hg
        simp only [Prod.mk.injEq] at hx
        have hlknone := (mkLeafTable_char s.arena s.states F (allEvents s) li tbl hmk).2.1 ev hev
        exact ⟨by simp [lookupTables, hlk, hlknone], hx.1, hx.2.1, hx.2.2⟩
    constructor
    · unfold handleEventOptimizedF
      simp only [Bool.false_eq_true, if_false]
      cases htbl with
      | inl heq =>
        rw [heq]
        cases g with
        | none =>
          simp only [Option.some.injEq] at hnorm
          rw [← hnorm]
        | some gid =>
          try simp only [] at hnorm ⊢
          split_ifs at hnorm ⊢ <;>
            simp only [Option.some.injEq] at hnorm <;>
            rw [← hnorm]
      | inr hdef =>
        obtain ⟨heq, hgn, hcn, htn⟩ := hdef
        subst hgn hcn htn
        rw [heq]
        simp only [Option.some.injEq] at hnorm
        rw [← hnorm]
        try simp [runCalls]
    · intro g' calls' tgt' hg'
      simp only [Option.some.injEq, Prod.mk.injEq] at hg'
      obtain ⟨hg1, hg2, hg3⟩ := hg'
      subst hg1 hg2 hg3
      cases htbl with
      | inl heq => simp [heq]
      | inr hdef =>
        obtain ⟨heq, hgn, hcn, htn⟩ := hdef
        subst hgn hcn htn
        simp [heq]

/-- Witness for C1 at the optimized traffic light resting in Red,
dispatching event 5 (handled: exits none, action 61, entry 30, guard 71)
— with a benign actions object the two dispatch paths agree — and
checking the cached triple against `_get_methodcallers`. -/
theorem c1_optimized_refines_normal_witness :
    (doOptimize (fuelOf tlight) tlight = some tlightO ∧
      (1 : Nat) ∈ leafIndices tlight ∧
      (evDefinedInArena tlight.arena 5 = true → 5 ∈ allEvents tlight) ∧
      handleEventNormalF calmBehav (fuelOf tlight) ⟨tlightO, some 1, false, .normal⟩ 5 =
        some (⟨tlightO, some 2, false, .normal⟩, [61, 30], none)) ∧
    (handleEventOptimizedF calmBehav ⟨tlightO, some 1, false, .normal⟩ 5 =
        (⟨tlightO, some 2, false, .normal⟩, [61, 30], none) ∧
      (∀ g calls tgt,
        gmcF tlight.arena tlight.states (fuelOf tlight) 5 1 = some (g, calls, tgt) →
        (lookupTables tlightO.tables 1 5).guard = g ∧
        (lookupTables tlightO.tables 1 5).calls = calls ∧
        (match (lookupTables tlightO.tables 1 5).target with
         | some x => x
         | none => 1) = tgt)) :=
  ⟨⟨by decide, by decide, fun _ => by decide, by decide⟩,
   c1_optimized_refines_normal (fuelOf tlight) tlight tlightO calmBehav
     ⟨tlightO, some 1, false, .normal⟩ 5 1
     (⟨tlightO, some 2, false, .normal⟩, [61, 30], none)
     (by decide) rfl rfl rfl (by decide) (fun _ => by decide) (by decide)⟩

/-! ## C5: root / parent errors of add_state and identifier truthiness -/

/-- C5, counterexample to the claim as stated: `zeroS` has the root state
identifier 0 already defined, yet `add_state(5, parent=None)` does not
fail with the root-already-defined error — it silently overwrites the
root designation, because `add_state` tests the existing root with
Python truthiness (`if self.root:`) and the integer 0 is falsy. -/
theorem c5_counterexample :
    zeroS.root = some 0 ∧
    (add_state zeroS 5 none false none none).2 = none ∧
    (add_state zeroS 5 none false none none).1.root = some 5 := by
  refine ⟨by decide, by decide, by decide⟩

/-- C5 (amended): the claimed errors are raised for truthy identifiers:
when the structure has a truthy root defined, `add_state` with no parent
fails with the root-already-defined error leaving the root, the
id-to-state mapping and every existing node unchanged (only the garbage
fresh node object exists); and when a truthy parent identifier is not
present, `add_state` fails with the parent-unknown error leaving the
structure entirely unchanged.  A falsy identifier (such as the integer
0) as existing root or as parent escapes these checks. -/
theorem c5_truthy_build_errors (s : Structure) (sid r p : Nat) (initial : Bool)
    (entry exitA : Option Nat) :
    (s.root = some r → r ≠ 0 →
      add_state s sid none initial entry exitA =
        ({ s with arena := s.arena ++ [mkNode sid entry exitA] }, some .rootAlreadyDefined)) ∧
    (p ≠ 0 → lookupA s.states p = none →
      add_state s sid (some p) initial entry exitA = (s, some .parentUnknown)) := by
  constructor
  · intro hr h0
    simp [add_state, rootBranch, truthyId, hr, h0]
  · intro h0 hl
    simp [add_state, h0, hl]

/-- Witness for C5 (amended) on the traffic light: root 1 is truthy, so a
second root attempt fails with the root-already-defined error; parent 42
is truthy and unknown, so that attempt fails with parent-unknown. -/
theorem c5_truthy_build_errors_witness :
    (tlight.root = some 1 ∧ (1 : Nat) ≠ 0 ∧
      add_state tlight 9 none false none none =
        ({ tlight with arena := tlight.arena ++ [mkNode 9 none none] },
          some .rootAlreadyDefined)) ∧
    ((42 : Nat) ≠ 0 ∧ lookupA tlight.states 42 = none ∧
      add_state tlight 9 (some 42) false none none = (tlight, some .parentUnknown)) :=
  ⟨⟨by decide, by decide,
    (c5_truthy_build_errors tlight 9 1 42 false none none).1 (by decide) (by decide)⟩,
   ⟨by decide, by decide,
    (c5_truthy_build_errors tlight 9 1 42 false none none).2 (by decide) (by decide)⟩⟩

/-! ## C4: add_state with a duplicate identifier -/

/-- C4, counterexample to the claim as stated: adding the already-present
identifier 2 under parent 1 of the traffic light does fail with the
duplicate-identifier error, but the observable build state is NOT left
unchanged — the parent's children list has grown by the fresh orphan
node (arena index 4), because `self.states[parent].add(...)` runs before
the duplicate check. -/
theorem c4_counterexample :
    (add_state tlight 2 (some 1) false none none).2 = some .duplicateStateId ∧
    (getNodeA tlight.arena 0).map (fun n => n.children) = some [1, 2, 3] ∧
    (getNodeA (add_state tlight 2 (some 1) false none none).1.arena 0).map
      (fun n => n.children) = some [1, 2, 3, 4] ∧
    ([1, 2, 3, 4] : List Nat) ≠ [1, 2, 3] := by
  refine ⟨by decide, by decide, by decide, by decide⟩

/-- C4 (amended): an `add_state` call whose identifier is already present
and whose parent is a truthy, present identifier fails with the
duplicate-identifier error provided the initial-flag handling does not
raise first (if `is_initial` is set while the parent already has an
initial child, the call fails with the initial-already-set error
instead); the id-to-state mapping and the root are unchanged, but the
attach-to-parent side effects are not rolled back: the parent's children
list gains a fresh orphan node and, if `is_initial` was set, the
parent's initial-child designation now points at that orphan. -/
theorem c4_duplicate_add_mutates_parent (s : Structure) (sid p pi : Nat)
    (initial : Bool) (entry exitA : Option Nat) (pn : Node)
    (hp : p ≠ 0) (hpi : lookupA s.states p = some pi)
    (hdup : hasKey s.states sid = true)
    (hpn : getNodeA s.arena pi = some pn)
    (hini : initial = true → pn.initial = none) :
    (add_state s sid (some p) initial entry exitA).2 = some .duplicateStateId ∧
    (add_state s sid (some p) initial entry exitA).1.states = s.states ∧
    (add_state s sid (some p) initial entry exitA).1.root = s.root ∧
    (getNodeA (add_state s sid (some p) initial entry exitA).1.arena pi).map
      (fun n => n.children) = some (pn.children ++ [s.arena.length]) ∧
    (initial = true →
      (getNodeA (add_state s sid (some p) initial entry exitA).1.arena pi).map
        (fun n => n.initial) = some (some s.arena.length)) := by
  have hlt : pi < s.arena.length := getNodeA_lt _ _ _ hpn
  have hlt1 : pi < (s.arena ++ [mkNode sid entry exitA]).length := by
    simp; omega
  have hne : s.arena.length ≠ pi := by omega
  have hadd : add_state s sid (some p) initial entry exitA =
      ({ s with
          arena := setNodeA (setNodeA (s.arena ++ [mkNode sid entry exitA]) pi
                       { pn with
                           initial := if initial then some s.arena.length else pn.initial,
                           children := pn.children ++ [s.arena.length] })
                     s.arena.length { mkNode sid entry exitA with parent := some pi } },
        some .duplicateStateId) := by
    simp only [add_state, ne_eq, hp, not_false_eq_true, ite_true, hpi]
    unfold attachChild
    simp only [getNodeA_append_lt s.arena [mkNode sid entry exitA] pi hlt, hpn,
      getNodeA_append_self]
    simp only [mkNode, Option.isSome_none, Bool.false_eq_true, if_false]
    rw [if_neg (by
      intro hand
      rcases hand with ⟨hi, hsome⟩
      rw [hini hi] at hsome
      simp at hsome)]
    unfold finishAdd
    simp [hdup]
  rw [hadd]
  refine ⟨rfl, rfl, rfl, ?_, ?_⟩
  · rw [getNodeA_set_ne _ _ _ _ hne, getNodeA_set_self _ _ _ hlt1]
    rfl
  · intro hi
    rw [getNodeA_set_ne _ _ _ _ hne, getNodeA_set_self _ _ _ hlt1]
    simp [hi]

/-- Witness for C4 (amended) at the traffic light: duplicate identifier 2
under parent 1 (arena index 0, children [1, 2, 3]). -/
theorem c4_duplicate_add_mutates_parent_witness :
    ((1 : Nat) ≠ 0 ∧ lookupA tlight.states 1 = some 0 ∧
      hasKey tlight.states 2 = true ∧
      (getNodeA tlight.arena 0).map (fun n => n.children) = some [1, 2, 3]) ∧
    ((add_state tlight 2 (some 1) false none none).2 = some .duplicateStateId ∧
      (add_state tlight 2 (some 1) false none none).1.states = tlight.states ∧
      (add_state tlight 2 (some 1) false none none).1.root = tlight.root ∧
      (getNodeA (add_state tlight 2 (some 1) false none none).1.arena 0).map
        (fun n => n.children) = some ([1, 2, 3] ++ [tlight.arena.length])) := by
  have hpn : getNodeA tlight.arena 0 =
      some ⟨some 1, none, [1, 2, 3], some 1, none, none, []⟩ := by decide
  have h := c4_duplicate_add_mutates_parent tlight 2 1 0 false none none
    ⟨some 1, none, [1, 2, 3], some 1, none, none, []⟩
    (by decide) (by decide) (by decide) hpn (by intro h; cases h)
  exact ⟨⟨by decide, by decide, by decide, by decide⟩, ⟨h.1, h.2.1, h.2.2.1, h.2.2.2.1⟩⟩

/-! ## C3: internal transitions (target is None) -/

/-- C3, counterexample to the claim as stated: in `nestS` the machine
rests in A2 (arena index 4); event 9 is handled at the root with an
internal transition (no target) carrying action 99.  The claim predicts
the action list `[51, 21, 99]` (exits of the walked-over nodes plus the
transition action, no entries) and no state change (target stays index
4).  The code instead also descends the handler's initial-child chain:
it appends the entry actions 20 and 40 and lands on node 3 (state A1),
changing the state. -/
theorem c3_counterexample :
    gmcF nestS.arena nestS.states (fuelOf nestS) 9 4 =
      some (none, [51, 21, 99, 20, 40], 3) ∧
    ((3 : Nat) ≠ 4) ∧
    (([51, 21, 99, 20, 40] : List Nat) ≠ [51, 21, 99]) := by
  refine ⟨by decide, by decide, by decide⟩

/-- C3 (amended): when the walk from the current node finds a transition
with no target at handler `h` after walking over `ns`, the resolution
returns the exit actions of the walked-over nodes followed by the
transition's own action — no entries from the target-resolution or
descend phases — but then follows `h`'s initial-child chain, appending
the entry action of every descended node, and the resulting state is the
final node of that chain.  In particular when the handler has no initial
child (e.g. it is the current leaf itself) no entry actions are appended
and the state is the handler as found. -/
theorem c3_internal_transition (arena : List Node) (states : List (Nat × Nat))
    (F ev cur h : Nat) (t : Trans) (ns es : List Nat) (fin : Nat)
    (hwalk : walkUpF arena ev F cur [] = some (some (h, t), ns))
    (htgt : t.target = none)
    (hdesc : initialDescentF arena F h = some (es, fin)) :
    gmcF arena states F ev cur =
      some (t.guard, exitsOf arena ns ++ t.action.toList ++ es, fin) ∧
    (∀ hn, getNodeA arena h = some hn → hn.initial = none → es = [] ∧ fin = h) := by
  constructor
  · unfold gmcF
    rw [hwalk]
    simp only [htgt, hdesc]
  · intro hn hget hinit
    cases F with
    | zero => simp [initialDescentF] at hdesc
    | succ f =>
      unfold initialDescentF at hdesc
      simp only [hget, hinit, Option.some.injEq, Prod.mk.injEq] at hdesc
      exact ⟨hdesc.1.symm, hdesc.2.symm⟩

/-- Witness for C3 (amended) on `nestS`: handler is the root (index 0),
walked-over nodes [4, 1], initial descent of the root is ([20, 40], 3). -/
theorem c3_internal_transition_witness :
    (walkUpF nestS.arena 9 (fuelOf nestS) 4 [] =
        some (some (0, ⟨none, some 99, none⟩), [4, 1]) ∧
      initialDescentF nestS.arena (fuelOf nestS) 0 = some ([20, 40], 3)) ∧
    gmcF nestS.arena nestS.states (fuelOf nestS) 9 4 =
      some ((⟨none, some 99, none⟩ : Trans).guard,
        exitsOf nestS.arena [4, 1] ++ (⟨none, some 99, none⟩ : Trans).action.toList
          ++ [20, 40], 3) :=
  ⟨⟨by decide, by decide⟩,
   (c3_internal_transition nestS.arena nestS.states (fuelOf nestS) 9 4 0
     ⟨none, some 99, none⟩ [4, 1] [20, 40] 3 (by decide) rfl (by decide)).1⟩

/-- Witness for C10: the traffic-light dispatch in which action 30
raises, followed by the wedged-machine consequences at event 5 and the
known identifier 2. -/
theorem c10_raise_wedges_machine_witness :
    handleEventF throw30Behav (fuelOf tlight) tlM 5 =
      some (tlBusyM, [61, 30], some .raised) ∧
    (tlBusyM.handling = true ∧ tlBusyM.current = tlM.current ∧ tlBusyM.s = tlM.s ∧
      tlBusyM.mode = tlM.mode ∧
      (∀ e2, handleEventF throw30Behav (fuelOf tlight) tlBusyM e2 =
        some (tlBusyM, [], some .reentrant)) ∧
      (∀ sid, hasKey tlBusyM.s.states sid = true →
        setStateF tlBusyM sid = (tlBusyM, some .reentrant))) :=
  ⟨by decide,
   c10_raise_wedges_machine throw30Behav (fuelOf tlight) tlM tlBusyM 5 [61, 30] (by decide)⟩

end Hfsm
